import Mathlib

/-!
Verification of the `wait-for-tcp` readiness-probe utility (version 0.0.24).

Go strings are modelled as `List Char`; `time.Duration` (an `int64` count of
nanoseconds) is modelled as `Int`.  The configuration parser, the validator and
the polling loop of `main.go` are embedded as executable Lean functions, and the
spec's claims about them are proved below the definitions.
-/

/-- Model of a Go string: a list of characters. -/
abbrev GoStr := List Char

/-- Model of `time.Duration`: an integer count of nanoseconds. -/
abbrev GoDuration := Int

/-- The separator `"://"` used by the schema check in `validateConfig`. -/
def strSchemeSep : GoStr := [':', '/', '/']

/-- The separator `":"` used by the host:port checks in `validateConfig`. -/
def strColon : GoStr := [':']

/-- The separator `"."` used by the name derivation in `validateConfig`. -/
def strDot : GoStr := ['.']

/-- Splits `l` at the first occurrence of `sep`: returns the part before the
first occurrence and the part after it, or `none` when `sep` does not occur.
This is the search underlying Go's `strings.Index`/`strings.SplitN`. -/
def splitOnceAux (sep : GoStr) : GoStr → Option (GoStr × GoStr)
  | [] => none
  | c :: rest =>
    if sep.isPrefixOf (c :: rest) then some ([], (c :: rest).drop sep.length)
    else
      match splitOnceAux sep rest with
      | none => none
      | some (pre, post) => some (c :: pre, post)

/-- Model of Go's `strings.SplitN(s, sep, 2)` for a non-empty separator:
`[before, after]` when `sep` occurs in `s`, else `[s]`. -/
def goSplitN2 (s sep : GoStr) : List GoStr :=
  match splitOnceAux sep s with
  | none => [s]
  | some (pre, post) => [pre, post]

/-- Model of Go's `strings.Contains(s, sub)` for a non-empty `sub`. -/
def goContainsSub (s sub : GoStr) : Bool :=
  (splitOnceAux sub s).isSome

/-- Config holds the required environment variables (struct `Config` of
`main.go`). -/
structure Config where
  TargetName : GoStr
  TargetAddress : GoStr
  Interval : GoDuration
  DialTimeout : GoDuration
  LogAdditionalFields : Bool
deriving Repr, DecidableEq

/-- Errors produced by `parseConfig` and `validateConfig`.  Each constructor
stands for one of the `fmt.Errorf` messages of `main.go`, carrying the same
format arguments. -/
inductive ConfigError where
  | invalidInterval (raw : GoStr)
  | invalidDialTimeout (raw : GoStr)
  | invalidLogFields (raw : GoStr)
  | targetAddressRequired
  | schemaNotAllowed (schema : GoStr)
  | invalidAddressFormat
  | negativeInterval
  | negativeDialTimeout
deriving Repr, DecidableEq

/-- Environment key `"TARGET_NAME"`. -/
def keyTargetName : GoStr := "TARGET_NAME".toList

/-- Environment key `"TARGET_ADDRESS"`. -/
def keyTargetAddress : GoStr := "TARGET_ADDRESS".toList

/-- Environment key `"INTERVAL"`. -/
def keyInterval : GoStr := "INTERVAL".toList

/-- Environment key `"DIAL_TIMEOUT"`. -/
def keyDialTimeout : GoStr := "DIAL_TIMEOUT".toList

/-- Environment key `"LOG_ADDITIONAL_FIELDS"`. -/
def keyLogFields : GoStr := "LOG_ADDITIONAL_FIELDS".toList

/-- Embedding of the `INTERVAL` block of `parseConfig` (lines 39-45 of
`main.go`): if the raw string is non-empty, parse it with `pd` (the opaque
`time.ParseDuration`) and overwrite the default. -/
def parseIntervalVar (pd : GoStr → Option GoDuration) (raw : GoStr)
    (cfg : Config) : Except ConfigError Config :=
  if raw = [] then .ok cfg
  else
    match pd raw with
    | none => .error (.invalidInterval raw)
    | some d => .ok { cfg with Interval := d }

/-- Embedding of the `DIAL_TIMEOUT` block of `parseConfig` (lines 47-53 of
`main.go`). -/
def parseDialTimeoutVar (pd : GoStr → Option GoDuration) (raw : GoStr)
    (cfg : Config) : Except ConfigError Config :=
  if raw = [] then .ok cfg
  else
    match pd raw with
    | none => .error (.invalidDialTimeout raw)
    | some d => .ok { cfg with DialTimeout := d }

/-- Embedding of the `LOG_ADDITIONAL_FIELDS` block of `parseConfig` (lines
55-61 of `main.go`), with `pb` the opaque `strconv.ParseBool`. -/
def parseLogFieldsVar (pb : GoStr → Option Bool) (raw : GoStr)
    (cfg : Config) : Except ConfigError Config :=
  if raw = [] then .ok cfg
  else
    match pb raw with
    | none => .error (.invalidLogFields raw)
    | some b => .ok { cfg with LogAdditionalFields := b }

/-- Embedding of `parseConfig` of `main.go`: build the configuration with the
defaults (interval 2s, dial timeout 1s, no additional log fields), then run
the three optional-variable blocks in source order, stopping at the first
error.  `getenv` is the environment lookup, returning the empty string for an
absent key, exactly as `os.Getenv` does. -/
def parseConfig (pd : GoStr → Option GoDuration) (pb : GoStr → Option Bool)
    (getenv : GoStr → GoStr) : Except ConfigError Config :=
  match parseIntervalVar pd (getenv keyInterval)
      { TargetName := getenv keyTargetName
        TargetAddress := getenv keyTargetAddress
        Interval := 2000000000
        DialTimeout := 1000000000
        LogAdditionalFields := false } with
  | .error e => .error e
  | .ok cfg1 =>
    match parseDialTimeoutVar pd (getenv keyDialTimeout) cfg1 with
    | .error e => .error e
    | .ok cfg2 => parseLogFieldsVar pb (getenv keyLogFields) cfg2

/-- Embedding of the name derivation of `validateConfig` (lines 82-84 of
`main.go`): `strings.SplitN(addr, ":", 2)[0]` then
`strings.SplitN(hostPart, ".", 2)[0]`. -/
def deriveTargetName (addr : GoStr) : GoStr :=
  ((goSplitN2 ((goSplitN2 addr strColon).headD []) strDot).headD [])

/-- Embedding of the trailing duration checks of `validateConfig` (lines 87-93
of `main.go`), run on the configuration after the possible name derivation. -/
def validateConfigTail (cfg : Config) : Config × Option ConfigError :=
  if cfg.Interval < 0 then (cfg, some .negativeInterval)
  else if cfg.DialTimeout < 0 then (cfg, some .negativeDialTimeout)
  else (cfg, none)

/-- Embedding of `validateConfig` of `main.go`.  The Go function mutates its
argument through a pointer, so the embedding returns the (possibly updated)
configuration together with the optional error. -/
def validateConfig (cfg : Config) : Config × Option ConfigError :=
  if cfg.TargetAddress = [] then (cfg, some .targetAddressRequired)
  else if (goSplitN2 cfg.TargetAddress strSchemeSep).length > 1 then
    (cfg, some (.schemaNotAllowed ((goSplitN2 cfg.TargetAddress strSchemeSep).headD [])))
  else if goContainsSub cfg.TargetAddress strColon then
    validateConfigTail
      (if cfg.TargetName = [] then
        { cfg with TargetName := deriveTargetName cfg.TargetAddress }
      else cfg)
  else (cfg, some .invalidAddressFormat)

/-- Embedding of the configuration stage of `run` (lines 168-175 of `main.go`):
`parseConfig` followed by `validateConfig`, first error wins. -/
def parseAndValidate (pd : GoStr → Option GoDuration) (pb : GoStr → Option Bool)
    (getenv : GoStr → GoStr) : Except ConfigError Config :=
  match parseConfig pd pb getenv with
  | .error e => .error e
  | .ok cfg =>
    match validateConfig cfg with
    | (_, some e) => .error e
    | (cfg1, none) => .ok cfg1

example : validateConfig
    { TargetName := [], TargetAddress := "db.example.com:5432".toList,
      Interval := 0, DialTimeout := 0, LogAdditionalFields := false } =
    ({ TargetName := "db".toList, TargetAddress := "db.example.com:5432".toList,
       Interval := 0, DialTimeout := 0, LogAdditionalFields := false }, none) := by decide

example : (validateConfig
    { TargetName := [], TargetAddress := ":8080".toList,
      Interval := 2000000000, DialTimeout := 1000000000,
      LogAdditionalFields := false }).2 = none := by decide

example : (validateConfig
    { TargetName := [], TargetAddress := "http://db:1".toList,
      Interval := 0, DialTimeout := 0, LogAdditionalFields := false }).2 =
    some (.schemaNotAllowed "http".toList) := by decide

/-- The two error values of Go's `context` package, `context.Canceled` and
`context.DeadlineExceeded`. -/
inductive CtxErr where
  | canceled
  | deadlineExceeded
deriving Repr, DecidableEq

/-- A Go `error` value as observable from `waitForTarget`: either a dial error
(with its message) or a context error. -/
inductive GoError where
  | dialError (cause : GoStr)
  | ctxError (e : CtxErr)
deriving Repr, DecidableEq

/-- How one inter-attempt wait of `waitForTarget` ends: either the
`time.After(cfg.Interval)` timer fires, or `ctx.Done()` is closed with the
given context error. -/
inductive WaitOutcome where
  | intervalElapsed
  | ctxDone (e : CtxErr)
deriving Repr, DecidableEq

/-- The externally determined events of one iteration of `waitForTarget`'s
loop: the dial either succeeds, or fails (with a cause) and the subsequent
wait ends as described by the `WaitOutcome`. -/
inductive LoopEvent where
  | dialOk
  | dialFail (cause : GoStr) (wait : WaitOutcome)
deriving Repr, DecidableEq

/-- Embedding of the loop of `waitForTarget` (lines 141-159 of `main.go`),
driven by a finite schedule of externally determined iteration events.
Returns the list of timer durations armed by `time.After` (one per failed
attempt, always `cfg.Interval`) and the loop's result: `none` when the
schedule is exhausted with the loop still running, `some r` when the loop
returns, where `r` is the returned Go error (`none` modelling a nil error). -/
def waitForTarget (cfg : Config) : List LoopEvent → List GoDuration × Option (Option GoError)
  | [] => ([], none)
  | .dialOk :: _ => ([], some none)
  | .dialFail _ w :: rest =>
    match w with
    | .intervalElapsed =>
      let r := waitForTarget cfg rest
      (cfg.Interval :: r.1, r.2)
    | .ctxDone .canceled => ([cfg.Interval], some none)
    | .ctxDone .deadlineExceeded =>
      ([cfg.Interval], some (some (.ctxError .deadlineExceeded)))

/-- Value of a list of decimal digit characters. -/
def digitsVal (ds : List Char) : Int :=
  ds.foldl (fun a c => a * 10 + (Int.ofNat (c.toNat - 48))) 0

/-- The unit table of Go's `time.ParseDuration`, in nanoseconds. -/
def unitTable : List (GoStr × Int) :=
  [("ns".toList, 1), ("us".toList, 1000), ("µs".toList, 1000), ("μs".toList, 1000),
   ("ms".toList, 1000000), ("s".toList, 1000000000), ("m".toList, 60000000000),
   ("h".toList, 3600000000000)]

/-- Reads the unit part of one duration group: the maximal run of characters
that are neither digits nor `'.'`, looked up in `unitTable`. -/
def matchUnit (s : GoStr) : Option (Int × GoStr) :=
  match s.span (fun c => !(c.isDigit || c == '.')) with
  | ([], _) => none
  | (u, rest) =>
    match unitTable.lookup u with
    | none => none
    | some n => some (n, rest)

/-- Parses the unsigned part of a Go duration: one or more groups, each a
number (integer part, optional fraction) followed by a unit.  `fuel` bounds
the recursion by the input length. -/
def parseGroups : Nat → GoStr → Option Int
  | _, [] => some 0
  | 0, _ => none
  | fuel + 1, s =>
    match s.span Char.isDigit with
    | (intDs, r1) =>
      match (match r1 with
             | '.' :: t => (t.span Char.isDigit, true)
             | _ => (([], r1), false)) with
      | ((fracDs, r2), _) =>
        if intDs.isEmpty && fracDs.isEmpty then none
        else
          match matchUnit r2 with
          | none => none
          | some (unit, rest) =>
            let v := digitsVal intDs * unit +
              digitsVal fracDs * unit / Int.ofNat (10 ^ fracDs.length)
            match parseGroups fuel rest with
            | none => none
            | some w => some (v + w)

/-- Model of Go's `time.ParseDuration`: optional sign, the special case `"0"`,
then a sequence of number-unit groups using Go's unit table.  Int64 overflow
saturation is not modelled; the inputs appearing in this development are far
from overflow. -/
def goParseDuration (s : GoStr) : Option Int :=
  match (match s with
         | '-' :: t => (true, t)
         | '+' :: t => (false, t)
         | _ => (false, s)) with
  | (neg, s1) =>
    if s1 = ['0'] then some 0
    else if s1 = [] then none
    else
      match parseGroups s1.length s1 with
      | none => none
      | some v => some (if neg then -v else v)

/-- Model of Go's `strconv.ParseBool`. -/
def goParseBool (s : GoStr) : Option Bool :=
  if s ∈ ["1".toList, "t".toList, "T".toList, "TRUE".toList, "true".toList, "True".toList]
  then some true
  else if s ∈ ["0".toList, "f".toList, "F".toList, "FALSE".toList, "false".toList, "False".toList]
  then some false
  else none

example : goParseDuration "2s".toList = some 2000000000 := by decide
example : goParseDuration "x".toList = none := by decide
example : goParseDuration "-5s".toList = some (-5000000000) := by decide
example : goParseDuration "1.5ms".toList = some 1500000 := by decide
example : goParseDuration "1h2m".toList = some 3720000000000 := by decide
example : goParseDuration "".toList = none := by decide
example : goParseDuration "0".toList = some 0 := by decide

/-! ### Lemmas about the string-splitting model -/

theorem splitOnceAux_isSome_iff (sep : GoStr) (hsep : sep ≠ []) (l : GoStr) :
    (splitOnceAux sep l).isSome ↔ sep <:+: l := by
  induction l with
  | nil =>
    simp only [splitOnceAux, Option.isSome_none, Bool.false_eq_true, false_iff]
    intro h
    exact hsep (List.infix_nil.mp h)
  | cons c rest ih =>
    by_cases hp : sep.isPrefixOf (c :: rest)
    · simp only [splitOnceAux, hp, if_pos, Option.isSome_some, true_iff]
      exact ( List.isPrefixOf_iff_prefix.mp hp).isInfix
    · simp only [splitOnceAux, hp, if_neg, Bool.false_eq_true, not_false_iff]
      have hnp : ¬ sep <+: c :: rest := fun h => hp ( List.isPrefixOf_iff_prefix.mpr h)
      rcases h : splitOnceAux sep rest with _ | ⟨pre, post⟩
      · simp only [h, Option.isSome_none, Bool.false_eq_true, false_iff]
        rw [h] at ih
        simp only [Option.isSome_none, Bool.false_eq_true, false_iff] at ih
        intro hin
        rcases List.infix_cons_iff.mp hin with h1 | h2
        · exact hnp h1
        · exact ih h2
      · simp only [h, Option.isSome_some, true_iff]
        rw [h] at ih
        simp only [Option.isSome_some, true_iff] at ih
        exact List.infix_cons_iff.mpr (Or.inr ih)

theorem splitOnceAux_eq_some (sep : GoStr) (hsep : sep ≠ []) :
    ∀ (l pre post : GoStr), splitOnceAux sep l = some (pre, post) →
      l = pre ++ sep ++ post ∧ ¬ sep <:+: pre := by
  intro l
  induction l with
  | nil => intro pre post h; simp [splitOnceAux] at h
  | cons c rest ih =>
    intro pre post h
    by_cases hp : sep.isPrefixOf (c :: rest)
    · simp only [splitOnceAux, hp, if_pos, Option.some.injEq, Prod.mk.injEq] at h
      obtain ⟨t, ht⟩ := List.isPrefixOf_iff_prefix.mp hp
      refine ⟨?_, ?_⟩
      · rw [← h.1, ← h.2, ← ht, List.nil_append, List.drop_left]
      · rw [← h.1]
        intro hin
        exact hsep (List.infix_nil.mp hin)
    · rcases h' : splitOnceAux sep rest with _ | ⟨pre', post'⟩
      · simp [splitOnceAux, hp, h'] at h
      · simp only [splitOnceAux, hp, h', Bool.false_eq_true, if_false,
          Option.some.injEq, Prod.mk.injEq, reduceIte] at h
        obtain ⟨hrest, hnin⟩ := ih pre' post' h'
        refine ⟨?_, ?_⟩
        · rw [← h.1, ← h.2, hrest]; simp
        · rw [← h.1]
          intro hin
          rcases List.infix_cons_iff.mp hin with h1 | h2
          · apply hp
            apply List.isPrefixOf_iff_prefix.mpr
            refine h1.trans ?_
            rw [hrest, List.append_assoc]
            exact (List.cons_prefix_cons).mpr ⟨rfl, List.prefix_append pre' (sep ++ post')⟩
          · exact hnin h2

theorem splitOnceAux_single_none_takeWhile (c : Char) :
    ∀ l : GoStr, splitOnceAux [c] l = none → l.takeWhile (fun x => x != c) = l := by
  intro l
  induction l with
  | nil => intro _; rfl
  | cons a rest ih =>
    intro h
    by_cases hp : List.isPrefixOf [c] (a :: rest)
    · simp [splitOnceAux, hp] at h
    · simp only [splitOnceAux, hp, if_neg] at h
      have hac : (a != c) = true := by
        simp only [List.isPrefixOf, List.isPrefixOf_nil_left, Bool.and_true] at hp
        simpa [bne] using fun he => hp (by simp [he])
      rcases h' : splitOnceAux [c] rest with _ | p
      · rw [List.takeWhile_cons, hac]
        simp [ih h']
      · rw [h'] at h; simp at h

theorem goSplitN2_headD_single (c : Char) :
    ∀ l : GoStr, (goSplitN2 l [c]).headD [] = l.takeWhile (fun x => x != c) := by
  intro l
  induction l with
  | nil => rfl
  | cons a rest ih =>
    by_cases hac : a = c
    · subst hac
      have hp : List.isPrefixOf [a] (a :: rest) = true := by
        simp [List.isPrefixOf]
      simp [goSplitN2, splitOnceAux, hp, List.takeWhile_cons]
    · have hp : ¬ List.isPrefixOf [c] (a :: rest) := by
        simp only [List.isPrefixOf, List.isPrefixOf_nil_left, Bool.and_true]
        simpa using fun he => hac (by simp_all)
      have hbne : (a != c) = true := by simpa [bne] using hac
      rcases h' : splitOnceAux [c] rest with _ | ⟨pre, post⟩
      · have := splitOnceAux_single_none_takeWhile c rest h'
        simp [goSplitN2, splitOnceAux, hp, h', List.takeWhile_cons, hbne, this]
      · have ihs : pre = rest.takeWhile (fun x => x != c) := by
          have := ih
          rw [goSplitN2, h'] at this
          simpa using this
        simp [goSplitN2, splitOnceAux, hp, h', List.takeWhile_cons, hbne, ihs]

theorem splitOnceAux_single_isSome_iff_mem (c : Char) (l : GoStr) :
    (splitOnceAux [c] l).isSome ↔ c ∈ l := by
  rw [splitOnceAux_isSome_iff [c] (by simp) l]
  constructor
  · intro h
    exact h.sublist.subset (by simp)
  · intro h
    obtain ⟨s, t, hst⟩ := List.append_of_mem h
    exact ⟨s, t, by simp [hst]⟩

/-! ### Characterization of the validator's branches -/

theorem goSplitN2_length_iff (s sep : GoStr) :
    (goSplitN2 s sep).length > 1 ↔ (splitOnceAux sep s).isSome := by
  unfold goSplitN2
  rcases h : splitOnceAux sep s with _ | p <;> simp

theorem schemeCheck_iff (s : GoStr) :
    (goSplitN2 s strSchemeSep).length > 1 ↔ strSchemeSep <:+: s := by
  rw [goSplitN2_length_iff]
  exact splitOnceAux_isSome_iff strSchemeSep (by decide) s

theorem containsColon_iff (s : GoStr) :
    goContainsSub s strColon = true ↔ ':' ∈ s := by
  unfold goContainsSub strColon
  exact splitOnceAux_single_isSome_iff_mem ':' s

theorem deriveTargetName_eq (addr : GoStr) :
    deriveTargetName addr =
      (addr.takeWhile (fun x => x != ':')).takeWhile (fun x => x != '.') := by
  unfold deriveTargetName strColon strDot
  rw [goSplitN2_headD_single, goSplitN2_headD_single]

theorem validateConfig_addr_empty (cfg : Config) (h : cfg.TargetAddress = []) :
    validateConfig cfg = (cfg, some .targetAddressRequired) := by
  unfold validateConfig
  rw [if_pos h]

theorem validateConfig_scheme_case (cfg : Config)
    (h1 : cfg.TargetAddress ≠ [])
    (h2 : strSchemeSep <:+: cfg.TargetAddress) :
    validateConfig cfg =
      (cfg, some (.schemaNotAllowed ((goSplitN2 cfg.TargetAddress strSchemeSep).headD []))) := by
  unfold validateConfig
  rw [if_neg h1, if_pos ((schemeCheck_iff cfg.TargetAddress).mpr h2)]

theorem validateConfig_no_colon_case (cfg : Config)
    (h1 : cfg.TargetAddress ≠ [])
    (h2 : ¬ strSchemeSep <:+: cfg.TargetAddress)
    (h3 : ':' ∉ cfg.TargetAddress) :
    validateConfig cfg = (cfg, some .invalidAddressFormat) := by
  unfold validateConfig
  rw [if_neg h1,
    if_neg (fun hh => h2 ((schemeCheck_iff cfg.TargetAddress).mp hh)),
    if_neg (fun hh => h3 ((containsColon_iff cfg.TargetAddress).mp hh))]

theorem validateConfig_pass (cfg : Config)
    (h1 : cfg.TargetAddress ≠ [])
    (h2 : ¬ strSchemeSep <:+: cfg.TargetAddress)
    (h3 : ':' ∈ cfg.TargetAddress) :
    validateConfig cfg = validateConfigTail
      (if cfg.TargetName = [] then
        { cfg with TargetName := deriveTargetName cfg.TargetAddress }
      else cfg) := by
  unfold validateConfig
  rw [if_neg h1,
    if_neg (fun hh => h2 ((schemeCheck_iff cfg.TargetAddress).mp hh)),
    if_pos ((containsColon_iff cfg.TargetAddress).mpr h3)]

theorem validateConfigTail_fst (cfg : Config) : (validateConfigTail cfg).1 = cfg := by
  unfold validateConfigTail
  split_ifs <;> rfl

theorem validateConfigTail_ok (cfg : Config)
    (h1 : 0 ≤ cfg.Interval) (h2 : 0 ≤ cfg.DialTimeout) :
    validateConfigTail cfg = (cfg, none) := by
  unfold validateConfigTail
  rw [if_neg (not_lt.mpr h1), if_neg (not_lt.mpr h2)]

/-! ### Inversion lemmas -/

theorem validateConfig_ok_inv (cfg cfg1 : Config)
    (h : validateConfig cfg = (cfg1, none)) :
    cfg.TargetAddress ≠ [] ∧ ¬ strSchemeSep <:+: cfg.TargetAddress ∧
    ':' ∈ cfg.TargetAddress ∧
    cfg1 = (if cfg.TargetName = [] then
      { cfg with TargetName := deriveTargetName cfg.TargetAddress }
    else cfg) ∧
    0 ≤ cfg1.Interval ∧ 0 ≤ cfg1.DialTimeout := by
  by_cases h1 : cfg.TargetAddress = []
  · rw [validateConfig_addr_empty cfg h1] at h
    exact absurd h (by simp)
  by_cases h2 : strSchemeSep <:+: cfg.TargetAddress
  · rw [validateConfig_scheme_case cfg h1 h2] at h
    exact absurd h (by simp)
  by_cases h3 : ':' ∈ cfg.TargetAddress
  · rw [validateConfig_pass cfg h1 h2 h3] at h
    by_cases hn : cfg.TargetName = []
    · rw [if_pos hn] at h
      unfold validateConfigTail at h
      split_ifs at h with hi hd
      · exact absurd h (by simp)
      · exact absurd h (by simp)
      · simp only [Prod.mk.injEq] at h
        rw [if_pos hn]
        refine ⟨h1, h2, h3, h.1.symm, ?_, ?_⟩
        · rw [← h.1]; exact not_lt.mp hi
        · rw [← h.1]; exact not_lt.mp hd
    · rw [if_neg hn] at h
      unfold validateConfigTail at h
      split_ifs at h with hi hd
      · exact absurd h (by simp)
      · exact absurd h (by simp)
      · simp only [Prod.mk.injEq] at h
        rw [if_neg hn]
        refine ⟨h1, h2, h3, h.1.symm, ?_, ?_⟩
        · rw [← h.1]; exact not_lt.mp hi
        · rw [← h.1]; exact not_lt.mp hd
  · rw [validateConfig_no_colon_case cfg h1 h2 h3] at h
    exact absurd h (by simp)

theorem parseIntervalVar_ok_inv (pd : GoStr → Option GoDuration) (raw : GoStr)
    (cfg cfg1 : Config) (h : parseIntervalVar pd raw cfg = .ok cfg1) :
    cfg1.TargetName = cfg.TargetName ∧ cfg1.TargetAddress = cfg.TargetAddress ∧
    cfg1.DialTimeout = cfg.DialTimeout := by
  unfold parseIntervalVar at h
  split_ifs at h with hr
  · injection h with h'
    subst h'
    exact ⟨rfl, rfl, rfl⟩
  · rcases hp : pd raw with _ | d
    · rw [hp] at h
      exact absurd h (by simp)
    · rw [hp] at h
      injection h with h'
      subst h'
      exact ⟨rfl, rfl, rfl⟩

theorem parseDialTimeoutVar_ok_inv (pd : GoStr → Option GoDuration) (raw : GoStr)
    (cfg cfg1 : Config) (h : parseDialTimeoutVar pd raw cfg = .ok cfg1) :
    cfg1.TargetName = cfg.TargetName ∧ cfg1.TargetAddress = cfg.TargetAddress ∧
    cfg1.Interval = cfg.Interval := by
  unfold parseDialTimeoutVar at h
  split_ifs at h with hr
  · injection h with h'
    subst h'
    exact ⟨rfl, rfl, rfl⟩
  · rcases hp : pd raw with _ | d
    · rw [hp] at h
      exact absurd h (by simp)
    · rw [hp] at h
      injection h with h'
      subst h'
      exact ⟨rfl, rfl, rfl⟩

theorem parseLogFieldsVar_ok_inv (pb : GoStr → Option Bool) (raw : GoStr)
    (cfg cfg1 : Config) (h : parseLogFieldsVar pb raw cfg = .ok cfg1) :
    cfg1.TargetName = cfg.TargetName ∧ cfg1.TargetAddress = cfg.TargetAddress ∧
    cfg1.Interval = cfg.Interval ∧ cfg1.DialTimeout = cfg.DialTimeout := by
  unfold parseLogFieldsVar at h
  split_ifs at h with hr
  · injection h with h'
    subst h'
    exact ⟨rfl, rfl, rfl, rfl⟩
  · rcases hp : pb raw with _ | b
    · rw [hp] at h
      exact absurd h (by simp)
    · rw [hp] at h
      injection h with h'
      subst h'
      exact ⟨rfl, rfl, rfl, rfl⟩

theorem parseConfig_ok_inv (pd : GoStr → Option GoDuration) (pb : GoStr → Option Bool)
    (g : GoStr → GoStr) (cfg : Config) (h : parseConfig pd pb g = .ok cfg) :
    cfg.TargetName = g keyTargetName ∧ cfg.TargetAddress = g keyTargetAddress := by
  unfold parseConfig at h
  rcases h1 : parseIntervalVar pd (g keyInterval)
      { TargetName := g keyTargetName
        TargetAddress := g keyTargetAddress
        Interval := 2000000000
        DialTimeout := 1000000000
        LogAdditionalFields := false } with e | c1
  · rw [h1] at h
    exact absurd h (by simp)
  · rw [h1] at h
    dsimp only [] at h
    rcases h2 : parseDialTimeoutVar pd (g keyDialTimeout) c1 with e | c2
    · rw [h2] at h
      exact absurd h (by simp)
    · rw [h2] at h
      dsimp only [] at h
      obtain ⟨f1a, f1b, _⟩ := parseIntervalVar_ok_inv pd (g keyInterval) _ c1 h1
      obtain ⟨f2a, f2b, _⟩ := parseDialTimeoutVar_ok_inv pd (g keyDialTimeout) c1 c2 h2
      obtain ⟨f3a, f3b, _, _⟩ := parseLogFieldsVar_ok_inv pb (g keyLogFields) c2 cfg h
      constructor
      · rw [f3a, f2a, f1a]
      · rw [f3b, f2b, f1b]

/-- C10: validation modifies at most the `TargetName` field, and only when it
was empty on entry; the address, durations and verbosity flag are unchanged
whether validation succeeds or fails. -/
theorem validateConfig_frame (cfg : Config) :
    (validateConfig cfg).1.TargetAddress = cfg.TargetAddress ∧
    (validateConfig cfg).1.Interval = cfg.Interval ∧
    (validateConfig cfg).1.DialTimeout = cfg.DialTimeout ∧
    (validateConfig cfg).1.LogAdditionalFields = cfg.LogAdditionalFields ∧
    (cfg.TargetName ≠ [] → (validateConfig cfg).1.TargetName = cfg.TargetName) := by
  by_cases h1 : cfg.TargetAddress = []
  · rw [validateConfig_addr_empty cfg h1]
    exact ⟨rfl, rfl, rfl, rfl, fun _ => rfl⟩
  by_cases h2 : strSchemeSep <:+: cfg.TargetAddress
  · rw [validateConfig_scheme_case cfg h1 h2]
    exact ⟨rfl, rfl, rfl, rfl, fun _ => rfl⟩
  by_cases h3 : ':' ∈ cfg.TargetAddress
  · rw [validateConfig_pass cfg h1 h2 h3, validateConfigTail_fst]
    by_cases hn : cfg.TargetName = []
    · rw [if_pos hn]
      exact ⟨rfl, rfl, rfl, rfl, fun hne => absurd hn hne⟩
    · rw [if_neg hn]
      exact ⟨rfl, rfl, rfl, rfl, fun _ => rfl⟩
  · rw [validateConfig_no_colon_case cfg h1 h2 h3]
    exact ⟨rfl, rfl, rfl, rfl, fun _ => rfl⟩

/-- Closed instance of `validateConfig_frame`: on a concrete configuration with
a non-empty name the validator returns every field unchanged. -/
theorem validateConfig_frame_witness :
    (validateConfig
      { TargetName := "db".toList, TargetAddress := "bad".toList,
        Interval := -5, DialTimeout := 7, LogAdditionalFields := true }).1.TargetName =
      "db".toList :=
  (validateConfig_frame
    { TargetName := "db".toList, TargetAddress := "bad".toList,
      Interval := -5, DialTimeout := 7, LogAdditionalFields := true }).2.2.2.2
    (by decide)

/-- C9: validating an already-validated configuration succeeds again and
returns it unchanged (in particular the name is not re-derived to a different
value). -/
theorem validateConfig_idempotent (cfg cfg1 : Config)
    (h : validateConfig cfg = (cfg1, none)) :
    validateConfig cfg1 = (cfg1, none) := by
  obtain ⟨h1, h2, h3, hc, hi, hd⟩ := validateConfig_ok_inv cfg cfg1 h
  have haddr : cfg1.TargetAddress = cfg.TargetAddress := by
    rw [hc]; split_ifs <;> rfl
  have h1' : cfg1.TargetAddress ≠ [] := by rw [haddr]; exact h1
  have h2' : ¬ strSchemeSep <:+: cfg1.TargetAddress := by rw [haddr]; exact h2
  have h3' : ':' ∈ cfg1.TargetAddress := by rw [haddr]; exact h3
  rw [validateConfig_pass cfg1 h1' h2' h3']
  have hname : (if cfg1.TargetName = [] then
      { cfg1 with TargetName := deriveTargetName cfg1.TargetAddress }
    else cfg1) = cfg1 := by
    by_cases hn : cfg1.TargetName = []
    · rw [if_pos hn]
      have hder : deriveTargetName cfg1.TargetAddress = cfg1.TargetName := by
        rw [haddr, hc]
        rw [hc] at hn
        by_cases hcn : cfg.TargetName = []
        · rw [if_pos hcn]
        · rw [if_neg hcn] at hn
          exact absurd hn hcn
      rw [hder]
    · rw [if_neg hn]
  rw [hname]
  exact validateConfigTail_ok cfg1 hi hd

/-- Closed instance of `validateConfig_idempotent` at a concrete
configuration whose name is derived on the first pass. -/
theorem validateConfig_idempotent_witness :
    validateConfig
      { TargetName := "db".toList,
        TargetAddress := "db.example.com:5432".toList,
        Interval := 0, DialTimeout := 0, LogAdditionalFields := false } =
      ({ TargetName := "db".toList, TargetAddress := "db.example.com:5432".toList,
         Interval := 0, DialTimeout := 0, LogAdditionalFields := false }, none) :=
  validateConfig_idempotent
    { TargetName := [], TargetAddress := "db.example.com:5432".toList,
      Interval := 0, DialTimeout := 0, LogAdditionalFields := false }
    { TargetName := "db".toList, TargetAddress := "db.example.com:5432".toList,
      Interval := 0, DialTimeout := 0, LogAdditionalFields := false }
    (by decide)

theorem validateConfig_snd_pass (cfg : Config)
    (h1 : cfg.TargetAddress ≠ [])
    (h2 : ¬ strSchemeSep <:+: cfg.TargetAddress)
    (h3 : ':' ∈ cfg.TargetAddress) :
    (validateConfig cfg).2 =
      (if cfg.Interval < 0 then some ConfigError.negativeInterval
       else if cfg.DialTimeout < 0 then some ConfigError.negativeDialTimeout
       else none) := by
  rw [validateConfig_pass cfg h1 h2 h3]
  by_cases hn : cfg.TargetName = []
  · rw [if_pos hn]
    unfold validateConfigTail
    dsimp only []
    split_ifs <;> rfl
  · rw [if_neg hn]
    unfold validateConfigTail
    split_ifs <;> rfl

/-- C6: for a configuration whose address passes the address checks,
validation fails when the interval or the dial timeout is negative and
succeeds when both are non-negative (zero included). -/
theorem validateConfig_duration_signs (cfg : Config)
    (h1 : cfg.TargetAddress ≠ [])
    (h2 : ¬ strSchemeSep <:+: cfg.TargetAddress)
    (h3 : ':' ∈ cfg.TargetAddress) :
    ((cfg.Interval < 0 ∨ cfg.DialTimeout < 0) → (validateConfig cfg).2 ≠ none) ∧
    (0 ≤ cfg.Interval → 0 ≤ cfg.DialTimeout → (validateConfig cfg).2 = none) := by
  rw [validateConfig_snd_pass cfg h1 h2 h3]
  constructor
  · rintro (hlt | hlt)
    · rw [if_pos hlt]
      simp
    · by_cases hI : cfg.Interval < 0
      · rw [if_pos hI]
        simp
      · rw [if_neg hI, if_pos hlt]
        simp
  · intro hi hd
    rw [if_neg (not_lt.mpr hi), if_neg (not_lt.mpr hd)]

/-- Closed instance of `validateConfig_duration_signs`: with both durations
zero on a well-formed address, validation succeeds. -/
theorem validateConfig_duration_signs_witness :
    (validateConfig
      { TargetName := "db".toList, TargetAddress := "db:1".toList,
        Interval := 0, DialTimeout := 0, LogAdditionalFields := false }).2 = none :=
  (validateConfig_duration_signs
    { TargetName := "db".toList, TargetAddress := "db:1".toList,
      Interval := 0, DialTimeout := 0, LogAdditionalFields := false }
    (by decide) (by decide) (by decide)).2 (by decide) (by decide)

/-- C7: any target address containing "://" is rejected, and the reported
error names the scheme: the portion of the address before its first
occurrence of "://". -/
theorem validateConfig_scheme_error (cfg : Config)
    (h : strSchemeSep <:+: cfg.TargetAddress) :
    ∃ s r, (validateConfig cfg).2 = some (.schemaNotAllowed s) ∧
      cfg.TargetAddress = s ++ strSchemeSep ++ r ∧ ¬ strSchemeSep <:+: s := by
  have h1 : cfg.TargetAddress ≠ [] := by
    intro he
    rw [he] at h
    exact absurd (List.infix_nil.mp h) (by decide)
  rw [validateConfig_scheme_case cfg h1 h]
  rcases hx : splitOnceAux strSchemeSep cfg.TargetAddress with _ | ⟨pre, post⟩
  · have hsome : (splitOnceAux strSchemeSep cfg.TargetAddress).isSome =
        true :=
      (splitOnceAux_isSome_iff strSchemeSep (by decide) cfg.TargetAddress).mpr h
    rw [hx] at hsome
    simp at hsome
  · obtain ⟨hdec, hnin⟩ :=
      splitOnceAux_eq_some strSchemeSep (by decide) cfg.TargetAddress pre post hx
    refine ⟨pre, post, ?_, hdec, hnin⟩
    simp [goSplitN2, hx]

/-- Closed instance of `validateConfig_scheme_error` at the address
"http://db:5432". -/
theorem validateConfig_scheme_error_witness :
    ∃ s r, (validateConfig
      { TargetName := "db".toList, TargetAddress := "http://db:5432".toList,
        Interval := 0, DialTimeout := 0, LogAdditionalFields := false }).2 =
        some (.schemaNotAllowed s) ∧
      "http://db:5432".toList = s ++ strSchemeSep ++ r ∧ ¬ strSchemeSep <:+: s :=
  validateConfig_scheme_error
    { TargetName := "db".toList, TargetAddress := "http://db:5432".toList,
      Interval := 0, DialTimeout := 0, LogAdditionalFields := false }
    (by decide)

/-- C5: when the name is absent and the address passes the address checks,
the validator derives the name as the host portion of the address (the part
before the first colon) cut at the first dot; when an address check fails the
configuration is returned unchanged, so no derivation takes place. -/
theorem validateConfig_derives_name (cfg : Config) :
    (cfg.TargetName = [] → cfg.TargetAddress ≠ [] →
      ¬ strSchemeSep <:+: cfg.TargetAddress → ':' ∈ cfg.TargetAddress →
      (validateConfig cfg).1.TargetName =
        (cfg.TargetAddress.takeWhile (fun x => x != ':')).takeWhile
          (fun x => x != '.')) ∧
    ((cfg.TargetAddress = [] ∨ strSchemeSep <:+: cfg.TargetAddress ∨
        ':' ∉ cfg.TargetAddress) →
      (validateConfig cfg).1 = cfg) := by
  constructor
  · intro hn h1 h2 h3
    rw [validateConfig_pass cfg h1 h2 h3, if_pos hn, validateConfigTail_fst,
      ← deriveTargetName_eq]
  · intro hfail
    rcases hfail with h1 | h2 | h3
    · rw [validateConfig_addr_empty cfg h1]
    · have h1 : cfg.TargetAddress ≠ [] := by
        intro he
        rw [he] at h2
        exact absurd (List.infix_nil.mp h2) (by decide)
      rw [validateConfig_scheme_case cfg h1 h2]
    · by_cases h1 : cfg.TargetAddress = []
      · rw [validateConfig_addr_empty cfg h1]
      · by_cases h2 : strSchemeSep <:+: cfg.TargetAddress
        · rw [validateConfig_scheme_case cfg h1 h2]
        · rw [validateConfig_no_colon_case cfg h1 h2 h3]

/-- Closed instance of `validateConfig_derives_name`: for the address
"db.example.com:5432" and an absent name, the derived name is the host cut at
the first dot. -/
theorem validateConfig_derives_name_witness :
    (validateConfig
      { TargetName := [], TargetAddress := "db.example.com:5432".toList,
        Interval := 0, DialTimeout := 0, LogAdditionalFields := false }).1.TargetName =
      ("db.example.com:5432".toList.takeWhile (fun x => x != ':')).takeWhile
        (fun x => x != '.') :=
  (validateConfig_derives_name
    { TargetName := [], TargetAddress := "db.example.com:5432".toList,
      Interval := 0, DialTimeout := 0, LogAdditionalFields := false }).1
    rfl (by decide) (by decide) (by decide)

/-- C8: each optional duration defaults independently: on any successful
parse, if the INTERVAL lookup returns the empty string (which is what
`os.Getenv` returns for an absent key, so absence and an explicitly empty
value are indistinguishable) the resulting interval is the default 2 seconds,
and if the DIAL_TIMEOUT lookup returns the empty string the resulting dial
timeout is the default 1 second — regardless of what the other keys hold. -/
theorem parseConfig_defaults (pd : GoStr → Option GoDuration)
    (pb : GoStr → Option Bool) (g : GoStr → GoStr) (cfg : Config)
    (h : parseConfig pd pb g = .ok cfg) :
    (g keyInterval = [] → cfg.Interval = 2000000000) ∧
    (g keyDialTimeout = [] → cfg.DialTimeout = 1000000000) := by
  unfold parseConfig at h
  rcases h1 : parseIntervalVar pd (g keyInterval)
      { TargetName := g keyTargetName
        TargetAddress := g keyTargetAddress
        Interval := 2000000000
        DialTimeout := 1000000000
        LogAdditionalFields := false } with e | c1
  · rw [h1] at h
    exact absurd h (by simp)
  · rw [h1] at h
    dsimp only [] at h
    rcases h2 : parseDialTimeoutVar pd (g keyDialTimeout) c1 with e | c2
    · rw [h2] at h
      exact absurd h (by simp)
    · rw [h2] at h
      obtain ⟨_, _, f1d⟩ := parseIntervalVar_ok_inv pd (g keyInterval) _ c1 h1
      obtain ⟨_, _, f2i⟩ := parseDialTimeoutVar_ok_inv pd (g keyDialTimeout) c1 c2 h2
      obtain ⟨_, _, f3i, f3d⟩ := parseLogFieldsVar_ok_inv pb (g keyLogFields) c2 cfg h
      constructor
      · intro hi
        rw [hi] at h1
        have hc1 : c1 =
            { TargetName := g keyTargetName
              TargetAddress := g keyTargetAddress
              Interval := 2000000000
              DialTimeout := 1000000000
              LogAdditionalFields := false } := by
          unfold parseIntervalVar at h1
          rw [if_pos rfl] at h1
          injection h1 with h'
          exact h'.symm
        rw [f3i, f2i, hc1]
      · intro hd
        rw [hd] at h2
        have hc2 : c2 = c1 := by
          unfold parseDialTimeoutVar at h2
          rw [if_pos rfl] at h2
          injection h2 with h'
          exact h'.symm
        rw [f3d, hc2, f1d]

/-- Closed instances of `parseConfig_defaults`: INTERVAL absent while
DIAL_TIMEOUT is "5s" leaves the interval at its 2-second default, and
DIAL_TIMEOUT absent while INTERVAL is "7s" leaves the dial timeout at its
1-second default. -/
theorem parseConfig_defaults_witness :
    ({ TargetName := [], TargetAddress := "db:5432".toList,
       Interval := 2000000000, DialTimeout := 5000000000,
       LogAdditionalFields := false } : Config).Interval = 2000000000 ∧
    ({ TargetName := [], TargetAddress := "db:5432".toList,
       Interval := 7000000000, DialTimeout := 1000000000,
       LogAdditionalFields := false } : Config).DialTimeout = 1000000000 :=
  ⟨(parseConfig_defaults goParseDuration goParseBool
      (fun k => if k = keyTargetAddress then "db:5432".toList
                else if k = keyDialTimeout then "5s".toList else [])
      { TargetName := [], TargetAddress := "db:5432".toList,
        Interval := 2000000000, DialTimeout := 5000000000,
        LogAdditionalFields := false }
      rfl).1 rfl,
   (parseConfig_defaults goParseDuration goParseBool
      (fun k => if k = keyTargetAddress then "db:5432".toList
                else if k = keyInterval then "7s".toList else [])
      { TargetName := [], TargetAddress := "db:5432".toList,
        Interval := 7000000000, DialTimeout := 1000000000,
        LogAdditionalFields := false }
      rfl).2 rfl⟩

/-- C1: on a validated configuration, a wait that ends because the context
was explicitly cancelled makes the loop return with no error, while a wait
that ends because the deadline expired makes it return the DeadlineExceeded
context error. -/
theorem waitForTarget_cancel_vs_deadline (cfg0 cfg : Config)
    (hv : validateConfig cfg0 = (cfg, none)) (cause : GoStr)
    (rest : List LoopEvent) :
    (waitForTarget cfg (.dialFail cause (.ctxDone .canceled) :: rest)).2 =
      some none ∧
    (waitForTarget cfg (.dialFail cause (.ctxDone .deadlineExceeded) :: rest)).2 =
      some (some (.ctxError .deadlineExceeded)) :=
  ⟨rfl, rfl⟩

/-- Closed instance of `waitForTarget_cancel_vs_deadline` on a concrete
validated configuration. -/
theorem waitForTarget_cancel_vs_deadline_witness :
    (waitForTarget
      { TargetName := "db".toList, TargetAddress := "db:5432".toList,
        Interval := 2000000000, DialTimeout := 1000000000,
        LogAdditionalFields := false }
      [.dialFail [] (.ctxDone .canceled)]).2 = some none ∧
    (waitForTarget
      { TargetName := "db".toList, TargetAddress := "db:5432".toList,
        Interval := 2000000000, DialTimeout := 1000000000,
        LogAdditionalFields := false }
      [.dialFail [] (.ctxDone .deadlineExceeded)]).2 =
      some (some (.ctxError .deadlineExceeded)) :=
  waitForTarget_cancel_vs_deadline
    { TargetName := "db".toList, TargetAddress := "db:5432".toList,
      Interval := 2000000000, DialTimeout := 1000000000,
      LogAdditionalFields := false }
    { TargetName := "db".toList, TargetAddress := "db:5432".toList,
      Interval := 2000000000, DialTimeout := 1000000000,
      LogAdditionalFields := false }
    (by decide) [] []

/-- C2: the polling loop absorbs dial failures: the only error it can return
is the DeadlineExceeded context error; a failed attempt whose wait elapses
just continues the loop; every armed inter-attempt timer is the fixed
`cfg.Interval` (no backoff growth); and no finite number of consecutive
failures makes the loop return (no maximum attempt count). -/
theorem waitForTarget_absorbs_dial_failures (cfg : Config) (tr : List LoopEvent) :
    (∀ e, (waitForTarget cfg tr).2 = some (some e) →
      e = .ctxError .deadlineExceeded) ∧
    (∀ cause rest, (waitForTarget cfg (.dialFail cause .intervalElapsed :: rest)).2 =
      (waitForTarget cfg rest).2) ∧
    (∀ d, d ∈ (waitForTarget cfg tr).1 → d = cfg.Interval) ∧
    (∀ cause n, (waitForTarget cfg
      (List.replicate n (.dialFail cause .intervalElapsed))).2 = none) := by
  refine ⟨?_, fun cause rest => rfl, ?_, ?_⟩
  · induction tr with
    | nil =>
      intro e h
      simp [waitForTarget] at h
    | cons ev rest ih =>
      intro e h
      cases ev with
      | dialOk => simp [waitForTarget] at h
      | dialFail c w =>
        cases w with
        | intervalElapsed => exact ih e h
        | ctxDone ce =>
          cases ce with
          | canceled => simp [waitForTarget] at h
          | deadlineExceeded =>
            have hr : (waitForTarget cfg
                (LoopEvent.dialFail c (.ctxDone .deadlineExceeded) :: rest)).2 =
                some (some (.ctxError .deadlineExceeded)) := rfl
            rw [hr] at h
            injection h with h1
            injection h1 with h2
            exact h2.symm
  · induction tr with
    | nil =>
      intro d hd
      simp [waitForTarget] at hd
    | cons ev rest ih =>
      intro d hd
      cases ev with
      | dialOk => simp [waitForTarget] at hd
      | dialFail c w =>
        cases w with
        | intervalElapsed =>
          simp only [waitForTarget, List.mem_cons] at hd
          rcases hd with h | h
          · exact h
          · exact ih d h
        | ctxDone ce =>
          cases ce <;> simp [waitForTarget] at hd <;> exact hd
  · intro cause n
    induction n with
    | zero => rfl
    | succ k ih => exact ih

/-- Closed instance of `waitForTarget_absorbs_dial_failures`: five consecutive
failed attempts leave the loop still running. -/
theorem waitForTarget_absorbs_dial_failures_witness :
    (waitForTarget
      { TargetName := "db".toList, TargetAddress := "db:5432".toList,
        Interval := 2000000000, DialTimeout := 1000000000,
        LogAdditionalFields := false }
      (List.replicate 5 (.dialFail "refused".toList .intervalElapsed))).2 = none :=
  (waitForTarget_absorbs_dial_failures
    { TargetName := "db".toList, TargetAddress := "db:5432".toList,
      Interval := 2000000000, DialTimeout := 1000000000,
      LogAdditionalFields := false } []).2.2.2 "refused".toList 5

/-- Validation outcome in the rule order stated by the spec for an
already-parsed configuration: address non-empty, then no scheme, then colon
present, then non-negative interval, then non-negative dial timeout; first
violation wins. -/
def specFirstViolation (cfg : Config) : Option ConfigError :=
  if cfg.TargetAddress = [] then some .targetAddressRequired
  else if strSchemeSep <:+: cfg.TargetAddress then
    some (.schemaNotAllowed ((goSplitN2 cfg.TargetAddress strSchemeSep).headD []))
  else if ':' ∈ cfg.TargetAddress then
    (if cfg.Interval < 0 then some .negativeInterval
     else if cfg.DialTimeout < 0 then some .negativeDialTimeout
     else none)
  else some .invalidAddressFormat

/-- C3 (amended): duration parsing of the raw strings happens in
`parseConfig`, before any address check, so a malformed INTERVAL string is
reported even when the target address is empty; after parsing succeeds,
`validateConfig` checks the remaining rules in the claimed order — address
non-empty, no scheme, colon present, then non-negative interval and dial
timeout — and the first violated rule determines the failure. -/
theorem validation_order (pd : GoStr → Option GoDuration)
    (pb : GoStr → Option Bool) (g : GoStr → GoStr) :
    (g keyInterval ≠ [] → pd (g keyInterval) = none →
      parseAndValidate pd pb g = .error (.invalidInterval (g keyInterval))) ∧
    (∀ cfg : Config, (validateConfig cfg).2 = specFirstViolation cfg) := by
  constructor
  · intro hne hpd
    unfold parseAndValidate parseConfig parseIntervalVar
    rw [if_neg hne, hpd]
  · intro cfg
    unfold specFirstViolation
    by_cases h1 : cfg.TargetAddress = []
    · rw [validateConfig_addr_empty cfg h1, if_pos h1]
    · rw [if_neg h1]
      by_cases h2 : strSchemeSep <:+: cfg.TargetAddress
      · rw [validateConfig_scheme_case cfg h1 h2, if_pos h2]
      · rw [if_neg h2]
        by_cases h3 : ':' ∈ cfg.TargetAddress
        · rw [if_pos h3, validateConfig_snd_pass cfg h1 h2 h3]
        · rw [if_neg h3, validateConfig_no_colon_case cfg h1 h2 h3]

/-- Closed instance of `validation_order`: a malformed INTERVAL string is
reported by the pipeline. -/
theorem validation_order_witness :
    parseAndValidate goParseDuration goParseBool
        (fun k => if k = keyInterval then "x".toList else []) =
      .error (.invalidInterval "x".toList) :=
  (validation_order goParseDuration goParseBool
    (fun k => if k = keyInterval then "x".toList else [])).1 (by decide) (by decide)

/-- C3 counterexample: with the target address absent and INTERVAL set to the
malformed string "x", the pipeline reports the malformed duration, not the
empty-address violation that the claimed check order would produce. -/
theorem parse_error_precedes_empty_address :
    parseAndValidate goParseDuration goParseBool
        (fun k => if k = keyInterval then "x".toList else []) =
      .error (.invalidInterval "x".toList) ∧
    ConfigError.invalidInterval "x".toList ≠ ConfigError.targetAddressRequired :=
  ⟨rfl, by decide⟩

/-- C4 (amended): a raw lookup that passes parsing and validation yields a
configuration whose address is non-empty and scheme-free and whose durations
are non-negative; the resulting name is non-empty provided a name was
supplied or the host portion of the address cut at the first dot is
non-empty.  (With an absent name and a host portion that is empty or starts
with a dot, validation still succeeds but the derived name is empty.) -/
theorem parseAndValidate_invariants (pd : GoStr → Option GoDuration)
    (pb : GoStr → Option Bool) (g : GoStr → GoStr) (cfg : Config)
    (h : parseAndValidate pd pb g = .ok cfg) :
    cfg.TargetAddress ≠ [] ∧ ¬ strSchemeSep <:+: cfg.TargetAddress ∧
    0 ≤ cfg.Interval ∧ 0 ≤ cfg.DialTimeout ∧
    ((g keyTargetName ≠ [] ∨
      (cfg.TargetAddress.takeWhile (fun x => x != ':')).takeWhile
        (fun x => x != '.') ≠ []) → cfg.TargetName ≠ []) := by
  unfold parseAndValidate at h
  rcases hp : parseConfig pd pb g with e | cfg0
  · rw [hp] at h
    exact absurd h (by simp)
  · rw [hp] at h
    dsimp only [] at h
    rcases hv : validateConfig cfg0 with ⟨cfg1, oe⟩
    rw [hv] at h
    cases oe with
    | some e => exact absurd h (by simp)
    | none =>
      injection h with h'
      subst h'
      obtain ⟨h1, h2, h3, hc, hi, hd⟩ := validateConfig_ok_inv cfg0 cfg1 hv
      obtain ⟨hn0, ha0⟩ := parseConfig_ok_inv pd pb g cfg0 hp
      have haddr : cfg1.TargetAddress = cfg0.TargetAddress := by
        rw [hc]
        split_ifs <;> rfl
      refine ⟨?_, ?_, hi, hd, ?_⟩
      · rw [haddr]
        exact h1
      · rw [haddr]
        exact h2
      · intro hcase
        rcases hcase with hname | hder
        · have hn : cfg0.TargetName ≠ [] := by
            rw [hn0]
            exact hname
          rw [hc, if_neg hn]
          exact hn
        · by_cases hn : cfg0.TargetName = []
          · rw [hc, if_pos hn]
            rw [show ({ cfg0 with
                TargetName := deriveTargetName cfg0.TargetAddress } : Config).TargetName =
                deriveTargetName cfg0.TargetAddress from rfl,
              deriveTargetName_eq]
            rw [haddr] at hder
            exact hder
          · rw [hc, if_neg hn]
            exact hn

/-- Closed instance of `parseAndValidate_invariants` at a concrete
environment defining only TARGET_ADDRESS "db:5432". -/
theorem parseAndValidate_invariants_witness :
    ("db:5432".toList : GoStr) ≠ [] ∧
    ¬ strSchemeSep <:+: ("db:5432".toList : GoStr) ∧
    (0 : GoDuration) ≤ 2000000000 ∧
    (0 : GoDuration) ≤ 1000000000 ∧
    ((([] : GoStr) ≠ [] ∨
      (("db:5432".toList : GoStr).takeWhile (fun x => x != ':')).takeWhile
        (fun x => x != '.') ≠ []) → ("db".toList : GoStr) ≠ []) :=
  parseAndValidate_invariants goParseDuration goParseBool
    (fun k => if k = keyTargetAddress then "db:5432".toList else [])
    { TargetName := "db".toList, TargetAddress := "db:5432".toList,
      Interval := 2000000000, DialTimeout := 1000000000,
      LogAdditionalFields := false }
    rfl

/-- C4 counterexample: the raw lookup with TARGET_ADDRESS ":8080" and no name
passes parsing and validation, yet the resulting configuration has an empty
target name, contrary to the claimed invariant. -/
theorem validateConfig_empty_name_counterexample :
    parseAndValidate goParseDuration goParseBool
        (fun k => if k = keyTargetAddress then ":8080".toList else []) =
      .ok
        { TargetName := [], TargetAddress := ":8080".toList,
          Interval := 2000000000, DialTimeout := 1000000000,
          LogAdditionalFields := false } ∧
    ({ TargetName := [], TargetAddress := ":8080".toList,
       Interval := 2000000000, DialTimeout := 1000000000,
       LogAdditionalFields := false } : Config).TargetName = [] :=
  ⟨rfl, rfl⟩
